import Mathlib

/-!
Shallow embedding of `src/unhacs/packages.py` (the unhacs package manager's
package model, release resolution, lock-file I/O and install/uninstall logic),
together with theorems settling the specification claims about it.

Modelling conventions:
* Python exceptions are modelled with `Except Err`.
* Python `None` and optional values are modelled with `Option`.
* Python truthiness of strings (`if version:` treats `None` and `""` alike)
  is modelled by the `truthy` helper.
* Network calls (`requests.get`, the GitHub releases API, `hacs.json`
  lookups) are modelled as explicit function parameters (oracles), so that
  the pure control flow of the source is preserved exactly.
* YAML text encoding mechanics are out of scope (per the spec); manifest and
  lock-file contents are modelled at the level of the dictionaries the code
  passes to `yaml.dump` / receives from `yaml.safe_load`.
-/

namespace Unhacs

/-- Errors raised by the Python code: `KeyError`, `ValueError(msg)`,
`IndexError` (from `parts[-2]` on a too-short split), and
`requests.HTTPError` (from `raise_for_status`). -/
inductive Err
  | keyError
  | valueError (msg : String)
  | indexError
  | httpError
deriving DecidableEq, Repr

/-- `class PackageType(StrEnum)` with members INTEGRATION and PLUGIN;
`auto()` on a `StrEnum` gives the lower-cased member name as value. -/
inductive PackageType
  | integration
  | plugin
deriving DecidableEq, Repr

/-- `str(package_type)`: a `StrEnum` member's `str` is its value. -/
def PackageType.toStr : PackageType → String
  | .integration => "integration"
  | .plugin => "plugin"

/-- `PackageType(s)`: by-value enum lookup; raises `ValueError` (here:
`none`) for any string that is not a member value. -/
def PackageType.fromStr (s : String) : Option PackageType :=
  if s = "integration" then some .integration
  else if s = "plugin" then some .plugin
  else none

/-- Python truthiness for an optional string: `None` and `""` are falsy. -/
def truthy : Option String → Option String
  | some s => if s = "" then none else some s
  | none => none

/-- Helper for `pySplit`: accumulates the current field (reversed) while
walking the character list. -/
def pySplitAux (sep : Char) : List Char → List Char → List String
  | acc, [] => [String.mk acc.reverse]
  | acc, c :: cs =>
    if c = sep then String.mk acc.reverse :: pySplitAux sep [] cs
    else pySplitAux sep (c :: acc) cs

/-- Python's `str.split(sep)` for a one-character separator: splits at
every occurrence, keeping empty fields (`"".split("/") == [""]`,
`"a//b".split("/") == ["a", "", "b"]`). -/
def pySplit (sep : Char) (s : String) : List String :=
  pySplitAux sep [] s.data

/-- The two kinds of on-disk locations `Package.path` can point at:
a directory under `custom_components/` (integration install) or a file
under `www/js/` (plugin install). -/
inductive PPath
  | compDir (dirName : String)
  | jsFile (fileName : String)
deriving DecidableEq, Repr

/-- The `Package` class's fields. `download_url` has no class-level default
in the source (it is only assigned on the resolution path), so it is
modelled as `Option String` with `none` meaning "never assigned".
`path` is the run-time-only back-reference, `None` by default. -/
structure Package where
  url : String
  owner : String
  name : String
  version : String
  download_url : Option String
  path : Option PPath
  package_type : PackageType
deriving DecidableEq, Repr

/-- `Package.__init__(url, version=None, package_type=INTEGRATION)`.
`parts = url.split("/")`; `parts[-2]` raises `IndexError` when the split
has fewer than two elements. When the supplied version is falsy the code
calls `self.fetch_version_release(version)` (a network call, here the
`resolve` oracle, applied to the original falsy `version` argument) and
also sets `download_url`; otherwise the version is stored verbatim and
`download_url` is never assigned. -/
def Package.init (resolve : Option String → Except Err (String × String))
    (url : String) (version : Option String) (package_type : PackageType) :
    Except Err Package :=
  let parts := pySplit (Char.ofNat 47) url
  if h : 2 ≤ parts.length then
    let owner := parts.get ⟨parts.length - 2, by omega⟩
    let name := parts.get ⟨parts.length - 1, by omega⟩
    match truthy version with
    | some v =>
      .ok { url := url, owner := owner, name := name, version := v,
            download_url := none, path := none, package_type := package_type }
    | none =>
      match resolve version with
      | .ok (v, d) =>
        .ok { url := url, owner := owner, name := name, version := v,
              download_url := some d, path := none, package_type := package_type }
      | .error e => .error e
  else .error .indexError

/-- A YAML scalar as it can appear in the `package_type` slot of a
manifest: a string, or any non-string value (including `None`) — the code
only ever distinguishes "truthy string" from everything else. -/
inductive YamlVal
  | str (s : String)
  | other
deriving DecidableEq, Repr

/-- The dictionary shape handled by `Package.from_yaml` / `Package.to_yaml`:
keys `url`, `version` (possibly `None`/absent, both modelled `none`) and
`package_type`. -/
structure PackageYaml where
  url : String
  version : Option String
  package_type : YamlVal
deriving DecidableEq, Repr

/-- `Package.from_yaml(yaml)`: pops `package_type`; if it is a truthy
string it is converted with `PackageType(...)` (raising `ValueError` on an
unrecognized value) and put back, otherwise it is left out so that
`Package(**yaml)` falls back to the default `INTEGRATION`. -/
def Package.from_yaml (resolve : Option String → Except Err (String × String))
    (y : PackageYaml) : Except Err Package :=
  match y.package_type with
  | .str s =>
    if s = "" then
      Package.init resolve y.url y.version .integration
    else
      match PackageType.fromStr s with
      | some t => Package.init resolve y.url y.version t
      | none => .error (.valueError s)
  | .other => Package.init resolve y.url y.version .integration

/-- `Package.to_yaml`: the three persisted fields. -/
def Package.to_yaml (p : Package) : PackageYaml :=
  { url := p.url, version := some p.version,
    package_type := .str p.package_type.toStr }

/-- `Package.__eq__`: compares only `url` and `version`. -/
def Package.eq (p q : Package) : Bool :=
  p.url == q.url && p.version == q.version

/-- The lock file's content: a top-level mapping with one key `packages`
holding a list of per-package records. -/
structure LockFile where
  packages : List PackageYaml
deriving DecidableEq, Repr

/-- `write_lock_packages(packages, package_file)`:
`yaml.dump({"packages": [p.to_yaml() for p in packages]}, ...)` — the
entries are emitted in the iteration order of the input. -/
def write_lock_packages (ps : List Package) : LockFile :=
  { packages := ps.map Package.to_yaml }

/-- `read_lock_packages(package_file)`: if the file does not exist
(`content = none`) return `[]`; otherwise deserialize every entry with
`Package.from_yaml`. -/
def read_lock_packages (resolve : Option String → Except Err (String × String))
    (content : Option LockFile) : Except Err (List Package) :=
  match content with
  | none => .ok []
  | some f => f.packages.mapM (Package.from_yaml resolve)

/-- One element of a release's `assets` list, as consumed by the code. -/
structure Asset where
  name : String
  browser_download_url : String
deriving DecidableEq, Repr

/-- One release returned by the GitHub releases API, restricted to the
fields the code reads. -/
structure Release where
  tag_name : String
  assets : List Asset
  zipball_url : String
deriving DecidableEq, Repr

/-- The artifact-location stage of `Package.fetch_version_release` (lines
113-136 of the source), for the already-selected release `rel`. `hacs v`
models the `filename` entry of the `hacs.json` fetched at ref `v` (`none`
when the file is absent or has no such key; `get_hacs_json` turns a 404
into `{}`). A truthy filename selects the matching asset's
`browser_download_url` (no match leaves it `None`), otherwise the
release's `zipball_url` is used; a falsy resulting `download_url` raises
`ValueError("No filename found in hacs.json")`. -/
def resolve_download (rel : Release) (hacs : String → Option String) :
    Except Err (String × String) :=
  let v := rel.tag_name
  let download_url : Option String :=
    match truthy (hacs v) with
    | some filename =>
      match rel.assets.find? (fun a => a.name = filename) with
      | some a => some a.browser_download_url
      | none => none
    | none => some rel.zipball_url
  match truthy download_url with
  | some d => .ok (v, d)
  | none => .error (.valueError "No filename found in hacs.json")

/-- `Package.fetch_version_release(version)`: the release-selection stage
(lines 90-112 of the source) composed with `resolve_download` for the
selected release. `releases` models the JSON list the releases API
returns. An empty release list raises
`ValueError("No releases found ...")`; the selection defaults to
`releases[0]`; a truthy requested version must string-match some
release's `tag_name` (the first match is taken), else
`ValueError("Version ... does not exist ...")` is raised. -/
def fetch_version_release (releases : List Release)
    (hacs : String → Option String) (version : Option String) :
    Except Err (String × String) :=
  match releases with
  | [] => .error (.valueError "No releases found")
  | r0 :: _ =>
    match truthy version with
    | some v =>
      match releases.find? (fun r => r.tag_name = v) with
      | some r => resolve_download r hacs
      | none => .error (.valueError "Version does not exist")
    | none => resolve_download r0 hacs

/-- An HTTP response as the code consumes it: status code and body text. -/
structure HttpResponse where
  status : Nat
  text : String
deriving DecidableEq, Repr

/-- `response.raise_for_status()` raises for any 4xx or 5xx status. -/
def isHttpError (s : Nat) : Bool := 400 ≤ s && s < 600

/-- First URL shape tried by `install_plugin.real_get` (written exactly as
the f-string in the source, which interpolates `owner` and `version` but
not `name`). -/
def pluginUrlDist (owner version filename : String) : String :=
  "https://raw.githubusercontent.com/" ++ owner ++ "/" ++ version
    ++ "/dist/" ++ filename

/-- Second URL shape: a release asset download. -/
def pluginUrlRelease (owner name version filename : String) : String :=
  "https://github.com/" ++ owner ++ "/" ++ name ++ "/releases/download/"
    ++ version ++ "/" ++ filename

/-- Third URL shape: raw file at the repository root (again without `name`,
as in the source). -/
def pluginUrlRoot (owner version filename : String) : String :=
  "https://raw.githubusercontent.com/" ++ owner ++ "/" ++ version
    ++ "/" ++ filename

/-- `real_get(filename)` inside `Package.install_plugin`: try the dist URL;
on a 404 (and only on a 404) fall through to the release-asset URL; on a
404 again fall through to the root URL; finally `raise_for_status()`.
`get` is the network oracle mapping a URL to its response. -/
def real_get (get : String → HttpResponse) (p : Package) (filename : String) :
    Except Err HttpResponse :=
  let r1 := get (pluginUrlDist p.owner p.version filename)
  let r2 := if r1.status = 404
            then get (pluginUrlRelease p.owner p.name p.version filename)
            else r1
  let r3 := if r2.status = 404
            then get (pluginUrlRoot p.owner p.version filename)
            else r2
  if isHttpError r3.status then .error .httpError else .ok r3

/-- `name.removeprefix("lovelace-")`. -/
def stripLovelace (name : String) : String :=
  if name.startsWith "lovelace-" then name.drop 9 else name

/-- The `valid_filenames` computed by `install_plugin`: the single
`hacs.json` filename when truthy, else the four conventional candidates. -/
def valid_filenames (hacsFilename : Option String) (name : String) :
    List String :=
  match truthy hacsFilename with
  | some f => [f]
  | none =>
    [stripLovelace name ++ ".js", name ++ ".js",
     name ++ "-umd.js", name ++ "-bundle.js"]

/-- The candidate loop of `install_plugin`: for each filename in order call
`real_get`, catching `requests.HTTPError` (the only exception `real_get`
raises) and moving on; the loop's `else` clause raises
`ValueError("No valid filename found ...")` when every candidate failed.
Returns the selected filename together with its response. -/
def resolve_plugin_source (get : String → HttpResponse) (p : Package) :
    List String → Except Err (String × HttpResponse)
  | [] => .error (.valueError "No valid filename found")
  | f :: rest =>
    match real_get get p f with
    | .ok r => .ok (f, r)
    | .error _ => resolve_plugin_source get p rest

/-- One installed integration: directory `custom_components/<dirName>`
containing a parseable `unhacs.yaml` manifest, modelled by the `Package`
the manifest deserializes to. -/
structure CompEntry where
  dirName : String
  pkg : Package
deriving DecidableEq, Repr

/-- One installed plugin: artifact file `www/js/<fileName>` with its
manifest `www/js/<fileName>-unhacs.yaml`, modelled by the `Package` the
manifest deserializes to. -/
structure JsEntry where
  fileName : String
  pkg : Package
deriving DecidableEq, Repr

/-- The parts of the configuration root that `installed_package` and
`uninstall` touch. -/
structure FS where
  components : List CompEntry
  js : List JsEntry
deriving DecidableEq, Repr

/-- `Package.installed_package(hass_config_path)`: scan
`custom_components/*` for a matching manifest, then `www/js/*-unhacs.yaml`;
a hit is returned with `path` set to the artifact; the match condition is
`installed.name == self.name and installed.url == self.url`. -/
def Package.installed_package (p : Package) (fs : FS) : Option Package :=
  match fs.components.find? (fun e => e.pkg.name = p.name ∧ e.pkg.url = p.url) with
  | some e => some { e.pkg with path := some (.compDir e.dirName) }
  | none =>
    match fs.js.find? (fun e => e.pkg.name = p.name ∧ e.pkg.url = p.url) with
    | some e => some { e.pkg with path := some (.jsFile e.fileName) }
    | none => none

/-- Whether a `PPath` exists in the modelled filesystem. -/
def PPath.presentIn (pth : PPath) (fs : FS) : Bool :=
  match pth with
  | .compDir n => fs.components.any (fun e => e.dirName = n)
  | .jsFile f => fs.js.any (fun e => e.fileName = f)

/-- The `if self.path:` branch of `uninstall`: a directory is removed with
`shutil.rmtree(self.path)` (raising on a missing path, hence `none`), a
file with `unlink()` of the artifact plus `unlink()` of its
`<name>-unhacs.yaml` sibling (also raising when missing). -/
def removeInstalled (pth : PPath) (fs : FS) : Option FS :=
  match pth with
  | .compDir n =>
    if fs.components.any (fun e => e.dirName = n) then
      some { fs with components := fs.components.filter (fun e => e.dirName ≠ n) }
    else none
  | .jsFile f =>
    if fs.js.any (fun e => e.fileName = f) then
      some { fs with js := fs.js.filter (fun e => e.fileName ≠ f) }
    else none

/-- `Package.uninstall(hass_config_path)`: with a `path`, remove it
directly and return `True`; otherwise look up the installed counterpart
and delegate (the counterpart always carries a `path`, so the recursion
bottoms out immediately; the inner dead branch is modelled as `none`),
returning `True`; with no counterpart return `False`. The `Option` layer
models exceptions from the removal primitives. -/
def Package.uninstall (p : Package) (fs : FS) : Option (FS × Bool) :=
  match p.path with
  | some pth => (removeInstalled pth fs).map (fun fs2 => (fs2, true))
  | none =>
    match p.installed_package fs with
    | some ip =>
      match ip.path with
      | some pth => (removeInstalled pth fs).map (fun fs2 => (fs2, true))
      | none => none
    | none => some (fs, false)

/-- Concrete package used in counterexamples/witnesses about lock-file
writing (its name sorts after `c2alpha`'s). -/
def c2beta : Package :=
  { url := "https://github.com/o/beta", owner := "o", name := "beta",
    version := "v1", download_url := none, path := none,
    package_type := .integration }

/-- Concrete package whose name sorts before `c2beta`'s. -/
def c2alpha : Package :=
  { url := "https://github.com/o/alpha", owner := "o", name := "alpha",
    version := "v1", download_url := none, path := none,
    package_type := .plugin }

/-- Concrete package used in the round-trip witness. -/
def c1pkg : Package :=
  { url := "https://github.com/simbaja/ha_gehome", owner := "simbaja",
    name := "ha_gehome", version := "v0.6.9", download_url := none,
    path := none, package_type := .integration }

/-- Concrete package used in the plugin-candidate counterexample. -/
def c5pkg : Package :=
  { url := "https://github.com/o/n", owner := "o", name := "n",
    version := "v", download_url := none, path := none,
    package_type := .plugin }

/-- Network oracle for the plugin-candidate counterexample: candidate
`a.js` answers 500 on the dist URL but 200 on the release URL (which the
code never reaches, since only 404 advances the chain); candidate `b.js`
answers 200 on the dist URL; everything else 404s. -/
def c5get (u : String) : HttpResponse :=
  if u = pluginUrlDist "o" "v" "a.js" then { status := 500, text := "" }
  else if u = pluginUrlRelease "o" "n" "v" "a.js" then { status := 200, text := "A" }
  else if u = pluginUrlDist "o" "v" "b.js" then { status := 200, text := "B" }
  else { status := 404, text := "" }

/-- Concrete package used in the non-404-swallowing counterexample. -/
def c6pkg : Package :=
  { url := "https://github.com/ow/nm", owner := "ow", name := "nm",
    version := "ver", download_url := none, path := none,
    package_type := .plugin }

/-- Network oracle for the non-404-swallowing counterexample: candidate
`x.js` hits a 503 on its first URL, candidate `y.js` succeeds. -/
def c6get (u : String) : HttpResponse :=
  if u = pluginUrlDist "ow" "ver" "x.js" then { status := 503, text := "" }
  else if u = pluginUrlDist "ow" "ver" "y.js" then { status := 200, text := "Y" }
  else { status := 404, text := "" }

/-- Network oracle used by several witnesses: a resolver that always
fails, exercising the paths that must not depend on it. -/
def failResolve : Option String → Except Err (String × String) :=
  fun _ => .error .httpError

/-- Concrete package (with a discovered path) and filesystem used by the
uninstall witness. -/
def c7pkg : Package :=
  { url := "https://github.com/o/comp", owner := "o", name := "comp",
    version := "v1", download_url := none, path := none,
    package_type := .integration }

/-- Filesystem holding one installed integration matching `c7pkg`. -/
def c7fs : FS :=
  { components := [{ dirName := "comp", pkg := c7pkg }], js := [] }

/-- Concrete releases list for the resolution counterexample: one release
tagged `v1` with no assets. -/
def c4rels : List Release :=
  [{ tag_name := "v1", assets := [], zipball_url := "zip" }]

/-- A `hacs.json` oracle that names a filename no asset carries. -/
def c4hacs : String → Option String := fun _ => some "file.js"

/- ------------------------------------------------------------------ -/
/- Shared helper lemmas (used by more than one claim's development). -/
/- ------------------------------------------------------------------ -/

/-- Round-trip of the `PackageType` string conversion. -/
theorem PackageType.fromStr_toStr (pt : PackageType) :
    PackageType.fromStr pt.toStr = some pt := by
  cases pt <;> rfl

/-- With a truthy version the constructor never consults the resolver and
stores the version verbatim, leaving `download_url` unassigned. -/
theorem Package.init_some_eq (resolve : Option String → Except Err (String × String))
    (url v : String) (pt : PackageType) (hv : v ≠ "") :
    Package.init resolve url (some v) pt =
      (if h : 2 ≤ (pySplit (Char.ofNat 47) url).length then
        .ok { url := url,
              owner := (pySplit (Char.ofNat 47) url).get ⟨(pySplit (Char.ofNat 47) url).length - 2, by omega⟩,
              name := (pySplit (Char.ofNat 47) url).get ⟨(pySplit (Char.ofNat 47) url).length - 1, by omega⟩,
              version := v, download_url := none, path := none,
              package_type := pt }
      else .error .indexError) := by
  simp only [Package.init]
  split
  · simp only [truthy, if_neg hv]
  · rfl

/-- With a falsy version the constructor's result is the resolver's
answer, threaded into the record. -/
theorem Package.init_falsy_eq (resolve : Option String → Except Err (String × String))
    (url : String) (version : Option String) (pt : PackageType)
    (hv : truthy version = none) :
    Package.init resolve url version pt =
      (if h : 2 ≤ (pySplit (Char.ofNat 47) url).length then
        match resolve version with
        | .ok (v, d) =>
          .ok { url := url,
                owner := (pySplit (Char.ofNat 47) url).get ⟨(pySplit (Char.ofNat 47) url).length - 2, by omega⟩,
                name := (pySplit (Char.ofNat 47) url).get ⟨(pySplit (Char.ofNat 47) url).length - 1, by omega⟩,
                version := v, download_url := some d, path := none,
                package_type := pt }
        | .error e => .error e
      else .error .indexError) := by
  simp only [Package.init, hv]

/-- `fetch_version_release` cannot tell an empty requested version from an
omitted one: both are falsy. -/
theorem fetch_version_release_empty (releases : List Release)
    (hacs : String → Option String) :
    fetch_version_release releases hacs (some "")
      = fetch_version_release releases hacs none := by
  cases releases <;> rfl

/-- Any successful outcome of the artifact-location stage carries the
selected release's tag as its version. -/
theorem resolve_download_fst (rel : Release) (hacs : String → Option String)
    (vd : String × String) (h : resolve_download rel hacs = .ok vd) :
    vd.1 = rel.tag_name := by
  simp only [resolve_download] at h
  split at h
  · cases h; rfl
  · cases h

/-- Without a `hacs.json` filename and with a non-empty `zipball_url`, the
artifact-location stage succeeds with the zipball. -/
theorem resolve_download_zipball (rel : Release)
    (hacs : String → Option String)
    (hh : truthy (hacs rel.tag_name) = none) (hz : rel.zipball_url ≠ "") :
    resolve_download rel hacs = .ok (rel.tag_name, rel.zipball_url) := by
  simp only [resolve_download]
  rw [hh]
  simp only [truthy, if_neg hz]

/-- A present path can be removed, and is gone afterwards. -/
theorem removeInstalled_of_present (pth : PPath) (fs : FS)
    (h : pth.presentIn fs = true) :
    ∃ fs', removeInstalled pth fs = some fs' ∧ pth.presentIn fs' = false := by
  cases pth with
  | compDir n =>
    refine ⟨{ fs with components := fs.components.filter (fun e => e.dirName ≠ n) },
      ?_, ?_⟩
    · simp only [removeInstalled]
      rw [if_pos (by simpa [PPath.presentIn] using h)]
    · simp only [PPath.presentIn, List.any_eq_false, decide_eq_true_eq]
      intro e he
      have hmem := List.mem_filter.mp he
      simp only [decide_eq_true_eq] at hmem
      exact hmem.2
  | jsFile f =>
    refine ⟨{ fs with js := fs.js.filter (fun e => e.fileName ≠ f) }, ?_, ?_⟩
    · simp only [removeInstalled]
      rw [if_pos (by simpa [PPath.presentIn] using h)]
    · simp only [PPath.presentIn, List.any_eq_false, decide_eq_true_eq]
      intro e he
      have hmem := List.mem_filter.mp he
      simp only [decide_eq_true_eq] at hmem
      exact hmem.2

/-- `installed_package` always returns a package whose `path` is set and
points at something present on disk. -/
theorem installed_package_path (p : Package) (fs : FS) (ip : Package)
    (h : p.installed_package fs = some ip) :
    ∃ pth, ip.path = some pth ∧ pth.presentIn fs = true := by
  unfold Package.installed_package at h
  cases hc : fs.components.find? (fun e => e.pkg.name = p.name ∧ e.pkg.url = p.url) with
  | some e =>
    rw [hc] at h
    refine ⟨.compDir e.dirName, by cases h; rfl, ?_⟩
    simp only [PPath.presentIn, List.any_eq_true]
    exact ⟨e, List.mem_of_find?_eq_some hc, by simp⟩
  | none =>
    rw [hc] at h
    cases hj : fs.js.find? (fun e => e.pkg.name = p.name ∧ e.pkg.url = p.url) with
    | some e =>
      rw [hj] at h
      refine ⟨.jsFile e.fileName, by cases h; rfl, ?_⟩
      simp only [PPath.presentIn, List.any_eq_true]
      exact ⟨e, List.mem_of_find?_eq_some hj, by simp⟩
    | none => rw [hj] at h; cases h

/- ------------------------------------------------------------------ -/
/- Claim theorems. -/
/- ------------------------------------------------------------------ -/

/-- C8: two `Package`s are equal under `__eq__` if and only if their `url`
and `version` fields match; no other field (name, owner, package type,
path, download url) participates. -/
theorem package_eq_iff (p q : Package) :
    Package.eq p q = true ↔ (p.url = q.url ∧ p.version = q.version) := by
  simp [Package.eq]

/-- C9: `read_lock_packages` on a missing lock file returns the empty
list rather than raising, which is exactly what it returns on a lock file
declaring no packages. -/
theorem read_lock_missing_empty
    (resolve : Option String → Except Err (String × String)) :
    read_lock_packages resolve none = .ok [] ∧
    read_lock_packages resolve (some { packages := [] }) = .ok [] :=
  ⟨rfl, rfl⟩

/-- C2 counterexample: `write_lock_packages` does not sort by name — the
output lists `beta` before `alpha` when inserted in that order — and two
insertion orders of the same two-package set produce different lock-file
content. -/
theorem write_lock_not_sorted_cex :
    write_lock_packages [c2beta, c2alpha]
      ≠ write_lock_packages [c2alpha, c2beta] ∧
    (write_lock_packages [c2beta, c2alpha]).packages.map PackageYaml.url
      = ["https://github.com/o/beta", "https://github.com/o/alpha"] := by
  constructor
  · decide
  · rfl

/-- C2 amended: `write_lock_packages` emits one `to_yaml` record per
package in the iteration order of its input (no sorting), so two writes
produce identical content exactly when the per-entry serializations agree
position by position. -/
theorem write_lock_insertion_order :
    (∀ ps qs : List Package,
      write_lock_packages ps = write_lock_packages qs ↔
        ps.map Package.to_yaml = qs.map Package.to_yaml) ∧
    (∀ (ps : List Package) (i : Nat),
      (write_lock_packages ps).packages[i]?
        = (ps[i]?).map Package.to_yaml) := by
  constructor
  · intro ps qs
    constructor
    · intro h
      simpa [write_lock_packages, LockFile.mk.injEq] using congrArg LockFile.packages h
    · intro h
      simp [write_lock_packages, h]
  · intro ps i
    simp [write_lock_packages]

/-- C3 counterexample: a manifest whose `package_type` is the unrecognized
string `"theme"` makes `Package.from_yaml` raise `ValueError` instead of
degrading to the Integration variant. -/
theorem from_yaml_unknown_type_cex :
    Package.from_yaml failResolve
        { url := "https://github.com/a/b", version := some "v1",
          package_type := .str "theme" }
      = .error (.valueError "theme") ∧
    (Package.from_yaml failResolve
        { url := "https://github.com/a/b", version := some "v1",
          package_type := .str "theme" }).isOk = false := by
  constructor <;> rfl

/-- C3 amended: `Package.from_yaml` degrades to the Integration variant
exactly for falsy or non-string `package_type` values (`None`, any
non-string, or the empty string); a truthy string that is not a recognized
variant tag raises `ValueError`. -/
theorem from_yaml_type_degrade
    (resolve : Option String → Except Err (String × String)) :
    (∀ y : PackageYaml,
      (y.package_type = .other ∨ y.package_type = .str "") →
      Package.from_yaml resolve y
        = Package.init resolve y.url y.version .integration) ∧
    (∀ (y : PackageYaml) (s : String),
      y.package_type = .str s → s ≠ "" → PackageType.fromStr s = none →
      Package.from_yaml resolve y = .error (.valueError s)) := by
  constructor
  · rintro y (h | h) <;> simp [Package.from_yaml, h]
  · intro y s hy hs hns
    simp [Package.from_yaml, hy, hs, hns]

/-- C3 witness: a manifest with a non-string `package_type` deserializes
to the Integration variant. -/
theorem from_yaml_type_degrade_witness :
    Package.from_yaml failResolve
        { url := "https://github.com/a/b", version := some "v1",
          package_type := .other }
      = Package.init failResolve "https://github.com/a/b" (some "v1")
          .integration ∧
    Package.from_yaml failResolve
        { url := "https://github.com/a/b", version := some "v1",
          package_type := .str "nonsense" }
      = .error (.valueError "nonsense") :=
  ⟨(from_yaml_type_degrade failResolve).1 _ (Or.inl rfl),
   (from_yaml_type_degrade failResolve).2 _ "nonsense" rfl (by decide) rfl⟩

/-- C10: with a truthy explicit version the constructor is independent of
the resolver (no network call), stores the version verbatim and leaves
`download_url` unset; with an omitted version the resolver's outcome is
the constructor's outcome; and an empty-string version behaves exactly as
an omitted one when resolving through `fetch_version_release`. -/
theorem init_explicit_version :
    (∀ (resolve resolve' : Option String → Except Err (String × String))
        (url v : String) (pt : PackageType), v ≠ "" →
      Package.init resolve url (some v) pt
        = Package.init resolve' url (some v) pt) ∧
    (∀ (resolve : Option String → Except Err (String × String))
        (url v : String) (pt : PackageType), v ≠ "" →
        2 ≤ (pySplit (Char.ofNat 47) url).length →
      ∃ q, Package.init resolve url (some v) pt = .ok q ∧
        q.url = url ∧ q.version = v ∧ q.download_url = none ∧
        q.package_type = pt) ∧
    (∀ (releases : List Release) (hacs : String → Option String)
        (url : String) (pt : PackageType),
      Package.init (fetch_version_release releases hacs) url (some "") pt
        = Package.init (fetch_version_release releases hacs) url none pt) ∧
    (∀ (resolve : Option String → Except Err (String × String))
        (url : String) (pt : PackageType) (e : Err),
      2 ≤ (pySplit (Char.ofNat 47) url).length → resolve none = .error e →
      Package.init resolve url none pt = .error e) ∧
    (∀ (resolve : Option String → Except Err (String × String))
        (url : String) (pt : PackageType) (v d : String),
      2 ≤ (pySplit (Char.ofNat 47) url).length → resolve none = .ok (v, d) →
      ∃ q, Package.init resolve url none pt = .ok q ∧
        q.version = v ∧ q.download_url = some d) := by
  refine ⟨?_, ?_, ?_, ?_, ?_⟩
  · intro resolve resolve' url v pt hv
    rw [Package.init_some_eq resolve url v pt hv,
        Package.init_some_eq resolve' url v pt hv]
  · intro resolve url v pt hv hlen
    rw [Package.init_some_eq resolve url v pt hv, dif_pos hlen]
    exact ⟨_, rfl, rfl, rfl, rfl, rfl⟩
  · intro releases hacs url pt
    rw [Package.init_falsy_eq _ url (some "") pt rfl,
        Package.init_falsy_eq _ url none pt rfl,
        fetch_version_release_empty]
  · intro resolve url pt e hlen hres
    rw [Package.init_falsy_eq resolve url none pt rfl, dif_pos hlen, hres]
  · intro resolve url pt v d hlen hres
    rw [Package.init_falsy_eq resolve url none pt rfl, dif_pos hlen, hres]
    exact ⟨_, rfl, rfl, rfl⟩

/-- C10 witness: concrete constructions exercising both the verbatim-store
path and the resolver path. -/
theorem init_explicit_version_witness :
    (∃ q, Package.init failResolve "https://github.com/a/b" (some "v1")
        .integration = .ok q ∧
      q.url = "https://github.com/a/b" ∧ q.version = "v1" ∧
      q.download_url = none ∧ q.package_type = .integration) ∧
    Package.init failResolve "https://github.com/a/b" none .plugin
      = .error .httpError :=
  ⟨init_explicit_version.2.1 failResolve "https://github.com/a/b" "v1"
      .integration (by decide) (by decide),
   init_explicit_version.2.2.2.1 failResolve "https://github.com/a/b"
      .plugin .httpError (by decide) rfl⟩

/-- C1: serializing a constructed `Package` with `to_yaml` and reading it
back with `from_yaml` reproduces every persisted field (`url`, `version`,
`package_type`) — in particular the result is `__eq__`-equal — and a
written lock file reads back to the same list of packages on all
persisted fields. (Constructed packages have a truthy version and a url
with at least two `/`-separated parts.) -/
theorem roundtrip_persisted_fields
    (resolve : Option String → Except Err (String × String)) :
    (∀ p : Package, p.version ≠ "" →
        2 ≤ (pySplit (Char.ofNat 47) p.url).length →
      ∃ q, Package.from_yaml resolve (Package.to_yaml p) = .ok q ∧
        q.url = p.url ∧ q.version = p.version ∧
        q.package_type = p.package_type ∧ Package.eq q p = true) ∧
    (∀ ps : List Package,
        (∀ p ∈ ps, p.version ≠ "" ∧
          2 ≤ (pySplit (Char.ofNat 47) p.url).length) →
      ∃ qs, read_lock_packages resolve (some (write_lock_packages ps))
          = .ok qs ∧
        qs.length = ps.length ∧
        ∀ pair ∈ qs.zip ps, pair.1.url = pair.2.url ∧
          pair.1.version = pair.2.version ∧
          pair.1.package_type = pair.2.package_type) := by
  have single : ∀ p : Package, p.version ≠ "" →
      2 ≤ (pySplit (Char.ofNat 47) p.url).length →
      ∃ q, Package.from_yaml resolve (Package.to_yaml p) = .ok q ∧
        q.url = p.url ∧ q.version = p.version ∧
        q.package_type = p.package_type ∧ Package.eq q p = true := by
    intro p hv hlen
    have htne : p.package_type.toStr ≠ "" := by
      cases hp : p.package_type <;> simp [PackageType.toStr]
    simp only [Package.from_yaml, Package.to_yaml, if_neg htne,
      PackageType.fromStr_toStr]
    rw [Package.init_some_eq resolve p.url p.version p.package_type hv,
      dif_pos hlen]
    exact ⟨_, rfl, rfl, rfl, rfl, by simp [Package.eq]⟩
  refine ⟨single, ?_⟩
  intro ps hps
  induction ps with
  | nil => exact ⟨[], rfl, rfl, by simp⟩
  | cons p ps ih =>
    obtain ⟨hv, hlen⟩ := hps p (List.mem_cons_self p ps)
    obtain ⟨q, hq, hqu, hqv, hqt, _⟩ := single p hv hlen
    obtain ⟨qs, hqs, hlen2, hzip⟩ :=
      ih (fun x hx => hps x (List.mem_cons_of_mem p hx))
    simp only [read_lock_packages, write_lock_packages] at hqs ⊢
    refine ⟨q :: qs, ?_, by simp [hlen2], ?_⟩
    · simp only [List.map_cons, List.mapM_cons, hq, hqs]
      rfl
    · intro pair hpair
      simp only [List.zip_cons_cons, List.mem_cons] at hpair
      rcases hpair with h | h
      · subst h; exact ⟨hqu, hqv, hqt⟩
      · exact hzip pair h

/-- C1 witness: a concrete package round-trips through `to_yaml` /
`from_yaml` on all persisted fields. -/
theorem roundtrip_persisted_fields_witness :
    ∃ q, Package.from_yaml failResolve (Package.to_yaml c1pkg) = .ok q ∧
      q.url = c1pkg.url ∧ q.version = c1pkg.version ∧
      q.package_type = c1pkg.package_type ∧ Package.eq q c1pkg = true :=
  (roundtrip_persisted_fields failResolve).1 c1pkg (by decide) (by decide)

/-- C7: `uninstall` returns `False`, raises nothing and leaves the
filesystem unchanged when the package has no discovered path and no
installed counterpart with the same name and url; with a discovered path
that exists, or with an installed counterpart, it removes the artifact
(together with its co-located manifest) and returns `True`. -/
theorem uninstall_spec (p : Package) (fs : FS) :
    (p.path = none → p.installed_package fs = none →
      p.uninstall fs = some (fs, false)) ∧
    (∀ pth, p.path = some pth → pth.presentIn fs = true →
      ∃ fs', p.uninstall fs = some (fs', true) ∧
        pth.presentIn fs' = false) ∧
    (∀ ip, p.path = none → p.installed_package fs = some ip →
      ∃ pth fs', ip.path = some pth ∧
        p.uninstall fs = some (fs', true) ∧
        pth.presentIn fs' = false) := by
  refine ⟨?_, ?_, ?_⟩
  · intro hp hip
    simp [Package.uninstall, hp, hip]
  · intro pth hp hpres
    obtain ⟨fs', hrm, hgone⟩ := removeInstalled_of_present pth fs hpres
    exact ⟨fs', by simp [Package.uninstall, hp, hrm], hgone⟩
  · intro ip hp hip
    obtain ⟨pth, hpth, hpres⟩ := installed_package_path p fs ip hip
    obtain ⟨fs', hrm, hgone⟩ := removeInstalled_of_present pth fs hpres
    exact ⟨pth, fs', hpth, by simp [Package.uninstall, hp, hip, hpth, hrm],
      hgone⟩

/-- C7 witness: uninstalling a package that is not installed is a no-op
returning `False`; uninstalling one with an installed counterpart removes
the artifact and returns `True`. -/
theorem uninstall_spec_witness :
    c7pkg.uninstall { components := [], js := [] }
      = some ({ components := [], js := [] }, false) ∧
    (∃ (pth : PPath) (fs' : FS), c7pkg.uninstall c7fs = some (fs', true) ∧
      pth.presentIn fs' = false) := by
  constructor
  · exact (uninstall_spec c7pkg { components := [], js := [] }).1 rfl rfl
  · obtain ⟨pth, fs', _, hun, hgone⟩ :=
      (uninstall_spec c7pkg c7fs).2.2
        { c7pkg with path := some (.compDir "comp") } rfl (by decide)
    exact ⟨pth, fs', hun, hgone⟩

/-- C4 counterexample: a requested version whose tag exists among the
releases can still make `fetch_version_release` raise — here the
`hacs.json` names a filename that matches no release asset — so
"resolution succeeds exactly when some release's tag string-equals it"
fails in the forward direction. -/
theorem fetch_version_release_cex :
    (c4rels.any (fun r => r.tag_name = "v1")) = true ∧
    fetch_version_release c4rels c4hacs (some "v1")
      = .error (.valueError "No filename found in hacs.json") ∧
    (fetch_version_release c4rels c4hacs (some "v1")).isOk = false := by
  exact ⟨rfl, rfl, rfl⟩

/-- C4 amended: an empty release list always raises; when resolution
succeeds without an explicit version the resolved tag is the first
release's (no comparison of versions); a requested version absent from
every tag raises; a successful resolution of a requested version returns
that exact string; and in the zipball case (no `hacs.json` filename,
non-empty `zipball_url`) resolution with no explicit version does
succeed. Success can additionally require the artifact step: a `hacs.json`
filename must match an asset, else it raises even for a matching tag. -/
theorem fetch_version_release_spec :
    (∀ (hacs : String → Option String) (ver : Option String),
      fetch_version_release [] hacs ver
        = .error (.valueError "No releases found")) ∧
    (∀ (r : Release) (rs : List Release) (hacs : String → Option String)
        (vd : String × String),
      fetch_version_release (r :: rs) hacs none = .ok vd →
      vd.1 = r.tag_name) ∧
    (∀ (rels : List Release) (hacs : String → Option String) (v : String),
      v ≠ "" → (∀ r ∈ rels, r.tag_name ≠ v) →
      ∃ msg, fetch_version_release rels hacs (some v)
        = .error (.valueError msg)) ∧
    (∀ (rels : List Release) (hacs : String → Option String) (v : String)
        (vd : String × String),
      v ≠ "" → fetch_version_release rels hacs (some v) = .ok vd →
      vd.1 = v) ∧
    (∀ (r : Release) (rs : List Release) (hacs : String → Option String),
      truthy (hacs r.tag_name) = none → r.zipball_url ≠ "" →
      fetch_version_release (r :: rs) hacs none
        = .ok (r.tag_name, r.zipball_url)) := by
  refine ⟨?_, ?_, ?_, ?_, ?_⟩
  · intro hacs ver; rfl
  · intro r rs hacs vd h
    simp only [fetch_version_release, truthy] at h
    exact resolve_download_fst r hacs vd h
  · intro rels hacs v hv hnone
    cases rels with
    | nil => exact ⟨"No releases found", rfl⟩
    | cons r rs =>
      have hfind : (r :: rs).find? (fun x => x.tag_name = v) = none := by
        rw [List.find?_eq_none]
        intro x hx
        simpa using hnone x hx
      refine ⟨"Version does not exist", ?_⟩
      simp only [fetch_version_release, truthy, if_neg hv, hfind]
  · intro rels hacs v vd hv h
    cases rels with
    | nil => cases h
    | cons r rs =>
      simp only [fetch_version_release, truthy, if_neg hv] at h
      cases hfind : (r :: rs).find? (fun x => x.tag_name = v) with
      | none => rw [hfind] at h; cases h
      | some rr =>
        rw [hfind] at h
        have htag : rr.tag_name = v := by
          simpa using List.find?_some hfind
        rw [← htag]
        exact resolve_download_fst rr hacs vd h
  · intro r rs hacs hh hz
    simp only [fetch_version_release, truthy]
    exact resolve_download_zipball r hacs hh hz

/-- C4 witness: concrete resolutions exercising the empty-list failure and
the zipball success path. -/
theorem fetch_version_release_spec_witness :
    fetch_version_release [] c4hacs none
      = .error (.valueError "No releases found") ∧
    fetch_version_release
        [{ tag_name := "v2", assets := [], zipball_url := "zurl" }]
        (fun _ => none) none
      = .ok ("v2", "zurl") :=
  ⟨fetch_version_release_spec.1 c4hacs none,
   fetch_version_release_spec.2.2.2.2
     { tag_name := "v2", assets := [], zipball_url := "zurl" } []
     (fun _ => none) rfl (by decide)⟩

/-- C5 counterexample: candidate `a.js` has a URL shape that would return
HTTP success (the release-asset URL answers 200), yet the resolver selects
the later candidate `b.js` — because `a.js`'s first URL answered 500, and
only a 404 advances the shape chain. So "selects the first candidate for
which some URL shape returns HTTP success" fails. -/
theorem plugin_candidates_cex :
    isHttpError (c5get (pluginUrlRelease "o" "n" "v" "a.js")).status
      = false ∧
    resolve_plugin_source c5get c5pkg ["a.js", "b.js"]
      = .ok ("b.js", { status := 200, text := "B" }) := by
  exact ⟨rfl, rfl⟩

/-- C5 amended: the resolver selects the first candidate whose 404-driven
URL chain (`real_get`) succeeds — later shapes of a candidate are reached
only through 404s — never touches candidates after a success, and raises
`ValueError` exactly when every candidate's chain fails. -/
theorem plugin_candidates_first_chain_success
    (get : String → HttpResponse) (p : Package) :
    (∀ (cands : List String) (f : String) (r : HttpResponse),
      resolve_plugin_source get p cands = .ok (f, r) →
      real_get get p f = .ok r ∧
      cands.find? (fun c => (real_get get p c).isOk) = some f) ∧
    (∀ cands : List String,
      (resolve_plugin_source get p cands).isOk = false ↔
        ∀ c ∈ cands, (real_get get p c).isOk = false) ∧
    (∀ (cands rest : List String) (x : String × HttpResponse),
      resolve_plugin_source get p cands = .ok x →
      resolve_plugin_source get p (cands ++ rest) = .ok x) := by
  refine ⟨?_, ?_, ?_⟩
  · intro cands
    induction cands with
    | nil => intro f r h; cases h
    | cons c rest ih =>
      intro f r h
      simp only [resolve_plugin_source] at h
      cases hr : real_get get p c with
      | ok r0 =>
        rw [hr] at h
        cases h
        exact ⟨hr, List.find?_cons_of_pos _ (by rw [hr]; rfl)⟩
      | error e =>
        rw [hr] at h
        obtain ⟨h1, h2⟩ := ih f r h
        refine ⟨h1, ?_⟩
        rw [List.find?_cons_of_neg _ (by rw [hr]; simp [Except.toBool]), h2]
  · intro cands
    induction cands with
    | nil => simp [resolve_plugin_source, Except.toBool]
    | cons c rest ih =>
      simp only [resolve_plugin_source]
      cases hr : real_get get p c with
      | ok r0 => simp [hr, Except.toBool]
      | error e => simp [hr, Except.toBool, ih]
  · intro cands
    induction cands with
    | nil => intro rest x h; cases h
    | cons c rest ih =>
      intro more x h
      simp only [resolve_plugin_source] at h ⊢
      cases hr : real_get get p c with
      | ok r0 =>
        rw [hr] at h
        exact h
      | error e =>
        rw [hr] at h
        exact ih more x h

/-- C5 witness: with a first candidate whose whole chain 404s and a second
whose first URL answers 200, the resolver's selection is the second
candidate, the first chain success. -/
theorem plugin_candidates_witness :
    real_get c5get c5pkg "b.js" = .ok { status := 200, text := "B" } ∧
    ["zzz.js", "b.js"].find? (fun c => (real_get c5get c5pkg c).isOk)
      = some "b.js" :=
  (plugin_candidates_first_chain_success c5get c5pkg).1
    ["zzz.js", "b.js"] "b.js" { status := 200, text := "B" } rfl

/-- C6 counterexample: candidate `x.js` hits a 503 — a non-404 HTTP
failure — during plugin artifact resolution, yet resolution neither
propagates it nor stops: the 503 is consumed as a fallback signal and the
next candidate `y.js` is selected successfully. -/
theorem plugin_non404_swallowed_cex :
    (c6get (pluginUrlDist "ow" "ver" "x.js")).status = 503 ∧
    resolve_plugin_source c6get c6pkg ["x.js", "y.js"]
      = .ok ("y.js", { status := 200, text := "Y" }) := by
  exact ⟨rfl, rfl⟩

/-- C6 amended: within one candidate's chain only a 404 advances to the
next URL shape — any other response ends that candidate's chain at once —
but the candidate loop consumes every HTTP failure, 404-driven or not, as
a fallback signal advancing to the next candidate; non-404 failures are
therefore not propagated out of the loop. -/
theorem real_get_non404_swallow (get : String → HttpResponse) (p : Package) :
    (∀ f : String,
      (get (pluginUrlDist p.owner p.version f)).status ≠ 404 →
      real_get get p f =
        (if isHttpError (get (pluginUrlDist p.owner p.version f)).status
         then .error .httpError
         else .ok (get (pluginUrlDist p.owner p.version f)))) ∧
    (∀ (f : String) (rest : List String) (e : Err),
      real_get get p f = .error e →
      resolve_plugin_source get p (f :: rest)
        = resolve_plugin_source get p rest) := by
  constructor
  · intro f h
    simp only [real_get, if_neg h]
  · intro f rest e h
    simp only [resolve_plugin_source]
    rw [h]

/-- C6 witness: a 503 on a candidate's first URL ends that candidate's
chain, and the loop then moves on to the remaining candidates. -/
theorem real_get_non404_swallow_witness :
    real_get c6get c6pkg "x.js"
      = (if isHttpError (c6get (pluginUrlDist "ow" "ver" "x.js")).status
         then .error .httpError
         else .ok (c6get (pluginUrlDist "ow" "ver" "x.js"))) ∧
    resolve_plugin_source c6get c6pkg ["x.js", "y.js"]
      = resolve_plugin_source c6get c6pkg ["y.js"] :=
  ⟨(real_get_non404_swallow c6get c6pkg).1 "x.js" (by decide),
   (real_get_non404_swallow c6get c6pkg).2 "x.js" ["y.js"] .httpError rfl⟩

end Unhacs
